import Mathlib

/-!
A verification development for the SliceOSM API server (`main.go`).

The Go program is shallowly embedded: pure functions (`GetPixel`, `GetSum`,
`parseInput`) become Lean functions; the stateful worker / HTTP handler code
becomes explicit state passing over a `SrvState` record.  Go `float64`
arithmetic is modelled by `Rat` (every float operation performed by the
program on the values of interest is exact); Go `int`/`int64` become
`Int`, and unsigned tile coordinates become `Nat`.  External collaborators
(the `orb` geometry library's area and tile-covering routines, the JSON
codec, the `osmx` subprocess and the filesystem) are modelled as explicit
parameters or as environment records describing their observable outcomes.
-/

/-! ## Association lists

Go maps (`h.progress`) and directories (`filesDir`, `tmpDir`) are modelled
as association lists: insertion shadows earlier bindings, lookup takes the
most recent binding, erasure removes every binding of the key. -/

def lookupA {α : Type} (k : String) : List (String × α) → Option α
  | [] => none
  | (k', v) :: rest => if k' = k then some v else lookupA k rest

def eraseA {α : Type} (k : String) : List (String × α) → List (String × α)
  | [] => []
  | p :: rest => if p.1 = k then eraseA k rest else p :: eraseA k rest

def insertA {α : Type} (k : String) (v : α) (l : List (String × α)) : List (String × α) :=
  (k, v) :: l

theorem lookupA_insertA_self {α : Type} (k : String) (v : α) (l : List (String × α)) :
    lookupA k (insertA k v l) = some v := by
  simp [insertA, lookupA]

theorem lookupA_insertA_ne {α : Type} (k k' : String) (v : α) (l : List (String × α))
    (h : k' ≠ k) : lookupA k (insertA k' v l) = lookupA k l := by
  simp [insertA, lookupA, h]

theorem lookupA_eraseA_self {α : Type} (k : String) (l : List (String × α)) :
    lookupA k (eraseA k l) = none := by
  induction l with
  | nil => rfl
  | cons p rest ih =>
    by_cases h : p.1 = k
    · simpa [eraseA, h] using ih
    · simpa [eraseA, h, lookupA] using ih

/-- A string is never equal to itself extended by a nonempty suffix; used to
separate the `<id>`, `<id>_region.json` and `<id>.osm.pbf` keys of the
files directory. -/
theorem self_ne_append (s t : String) (h : t ≠ "") : s ≠ s ++ t := by
  intro he
  apply h
  have hlen := congrArg String.length he
  rw [String.length_append] at hlen
  have : t.length = 0 := by omega
  cases t with
  | mk data =>
    cases data with
    | nil => rfl
    | cons c cs => simp [String.length, List.length] at this

/-! ## The density raster: `GetPixel` (main.go lines 237-259)

The decoded PNG (`h.image`) is modelled as a total function from pixel
coordinates to the 16-bit red and green channel values returned by Go's
`color.RGBA()`.  `red >> 8` is `red / 256`.  Tile coordinates are `Nat`
(they come from `maptile.Tile`'s unsigned fields). -/

def Img : Type := Nat → Nat → Nat × Nat

/-- The raw reference-raster cell value: high byte in the red channel,
low byte in the green channel (`int(red>>8)*256 + green>>8`). -/
def rawVal (img : Img) (x y : Nat) : Nat :=
  (img x y).1 / 256 * 256 + (img x y).2 / 256

/-- `GetPixel` from main.go: density of tile `(z, x, y)` relative to the
reference raster at zoom 12.  `dz` is written `2 <<< k` exactly as the Go
source writes `2 << k`. -/
def GetPixel (img : Img) (z x y : Nat) : Rat :=
  if z < 12 then
    let dz := 2 <<< (12 - z - 1)
    (((List.range dz).map fun ix =>
      (((List.range dz).map fun iy =>
        ((rawVal img (x * dz + ix) (y * dz + iy) : Nat) : Rat)).sum)).sum)
  else if z = 12 then
    ((rawVal img x y : Nat) : Rat)
  else
    let dz := 2 <<< (z - 12 - 1)
    ((rawVal img (x / dz) (y / dz) : Nat) : Rat) / ((dz * dz : Nat) : Rat)

/-! ## The node-count estimate: `GetSum` (main.go lines 220-235) -/

structure Tile where
  z : Nat
  x : Nat
  y : Nat
deriving DecidableEq, Repr

/-- The `for z := 0; z <= 14; z++` loop of `GetSum`: recompute the covering
at each zoom, break as soon as it has more than 256 tiles.  `cover z`
models `tilecover.Geometry(geom, z)` (an external `orb` routine) for the
geometry under consideration.  The loop runs at most 15 iterations, so a
structural fuel argument of 15 reproduces it exactly. -/
def coverLoop (cover : Nat → List Tile) : Nat → Nat → List Tile → List Tile
  | 0, _, acc => acc
  | fuel + 1, z, acc =>
    if z ≤ 14 then
      if (cover z).length > 256 then cover z else coverLoop cover fuel (z + 1) (cover z)
    else acc

/-- Go `int(f)` conversion: truncation toward zero (on a reduced fraction,
the numerator divided by the denominator, rounding toward zero). -/
def ratTrunc (q : Rat) : Int := q.num.tdiv q.den

/-- `GetSum` from main.go: pick the covering set by the zoom loop, sum
`GetPixel` over it, multiply by 32 and truncate to an integer. -/
def GetSum (img : Img) (cover : Nat → List Tile) : Int :=
  let covering := coverLoop cover 15 0 []
  let sum := (covering.map fun t => GetPixel img t.z t.x t.y).sum
  ratTrunc (sum * 32)

/-- Follows the spec's words: the zoom level reached by "iterating zoom
levels from 0 upward, stopping as soon as the covering-tile count exceeds
256 or zoom 14 is reached". -/
def specZoomAux (cover : Nat → List Tile) : Nat → Nat → Nat
  | 0, z => z
  | fuel + 1, z =>
    if (cover z).length > 256 ∨ 14 ≤ z then z else specZoomAux cover fuel (z + 1)

/-- Follows the spec's words: the zoom whose covering set `GetSum` sums over. -/
def specZoom (cover : Nat → List Tile) : Nat :=
  specZoomAux cover 15 0

theorem coverLoop_past_max (cover : Nat → List Tile) (n : Nat) (acc : List Tile) :
    coverLoop cover n 15 acc = acc := by
  cases n with
  | zero => rfl
  | succ m =>
    simp only [coverLoop]
    rw [if_neg (by omega)]

theorem coverLoop_eq_specZoomAux (cover : Nat → List Tile) :
    ∀ fuel z acc, z ≤ 14 → 14 - z < fuel →
      coverLoop cover fuel z acc = cover (specZoomAux cover fuel z) := by
  intro fuel
  induction fuel with
  | zero => intro z acc _ h2; omega
  | succ n ih =>
    intro z acc h1 h2
    simp only [coverLoop, specZoomAux, if_pos h1]
    by_cases hlen : (cover z).length > 256
    · rw [if_pos hlen, if_pos (Or.inl hlen)]
    · rw [if_neg hlen]
      by_cases hz : 14 ≤ z
      · have hz14 : z = 14 := by omega
        subst hz14
        rw [if_pos (Or.inr hz), coverLoop_past_max]
      · rw [if_neg (by push_neg; exact ⟨by omega, by omega⟩)]
        exact ih (z + 1) (cover z) (by omega) (by omega)

theorem coverLoop_eq_specZoom (cover : Nat → List Tile) :
    coverLoop cover 15 0 [] = cover (specZoom cover) :=
  coverLoop_eq_specZoomAux cover 15 0 [] (by omega) (by omega)

/-- With an empty covering at every zoom the estimate is zero (used to
instantiate admission theorems on concrete inputs). -/
theorem getSum_empty_cover (img : Img) : GetSum img (fun _ => []) = 0 := by
  simp only [GetSum, coverLoop_eq_specZoom]
  simp [ratTrunc]

/-! ## The region validator: `parseInput` (main.go lines 261-322)

Geometries follow `orb`'s tagged variants; coordinates are `(lon, lat)`
pairs of `Rat`.  The JSON decoding steps (`json.Decoder.Decode`,
`geojson.UnmarshalGeometry`, `json.Unmarshal` into `[]float64`) belong to
external libraries, so `parseInput`'s input is modelled post-decoding: a
`ParsedInput` value describing what the decoders produced.  The sanitized
payload (`geojsonGeom.MarshalJSON()` / `json.Marshal(coords[0:4])`) is
modelled at the structural level by `RegionOut`. -/

def Coord : Type := Rat × Rat

instance : DecidableEq Coord := by
  unfold Coord
  infer_instance

inductive Geom where
  | point (p : Coord)
  | multiPoint (ps : List Coord)
  | lineString (ps : List Coord)
  | polygon (rings : List (List Coord))
  | multiPolygon (polys : List (List (List Coord)))
  | bound (lo hi : Coord)
deriving DecidableEq

/-- The one error value of `parseInput`, distinguished by its message. -/
inductive ValErr where
  | invalidGeojson      -- "input GeoJSON is invalid"
  | notEnoughRings      -- "geom does not have enough rings"
  | ringTooFew          -- "ring does not have enough coordinates"
  | notEnoughCoords     -- "input does not have >3 coordinates"
  | invalidType         -- "invalid input RegionType"
  | zeroArea            -- "Input has 0 area"
deriving DecidableEq, Repr

/-- What the JSON decoders handed to the rest of `parseInput`. -/
inductive ParsedInput where
  | decodeBad                        -- decoder.Decode(&input) failed
  | geojsonBad                       -- geojson.UnmarshalGeometry failed
  | geojsonIn (g : Geom)             -- RegionType "geojson", parsed geometry
  | bboxIn (coords : List Rat)       -- RegionType "bbox", unmarshalled numbers
  | otherType                        -- any other RegionType value

/-- The sanitized region payload, structurally: either the re-serialized
parsed geometry or a bare array of four numbers. -/
inductive RegionOut where
  | geojsonOut (g : Geom)
  | bboxOut (nums : List Rat)
deriving DecidableEq

/-- The ring loop of the `orb.Polygon` case: first ring with fewer than
4 coordinates raises the error. -/
def firstShortRing : List (List Coord) → Option ValErr
  | [] => none
  | r :: rest => if r.length < 4 then some ValErr.ringTooFew else firstShortRing rest

/-- One polygon's checks: non-empty ring list, then the ring loop. -/
def checkPoly (rings : List (List Coord)) : Option ValErr :=
  if rings.length = 0 then some ValErr.notEnoughRings else firstShortRing rings

/-- The polygon loop of the `orb.MultiPolygon` case. -/
def checkPolys : List (List (List Coord)) → Option ValErr
  | [] => none
  | p :: rest =>
    match checkPoly p with
    | some e => some e
    | none => checkPolys rest

/-- The `switch v := geom.(type)` block of `parseInput`: ring checks for
polygons and multipolygons, every other geometry kind passes. -/
def ringCheck : Geom → Option ValErr
  | Geom.polygon rings =>
    if rings.length = 0 then some ValErr.notEnoughRings else firstShortRing rings
  | Geom.multiPolygon polys =>
    if polys.length = 0 then some ValErr.notEnoughRings else checkPolys polys
  | _ => none

/-- `orb.MultiPoint{p, q}.Bound()` (external `orb` routine): the rectangle
spanned by two points, componentwise min/max. -/
def boundOfTwo (p q : Coord) : Geom :=
  Geom.bound (min p.1 q.1, min p.2 q.2) (max p.1 q.1, max p.2 q.2)

/-- The `bbox` branch of `parseInput` (main.go lines 305-312): fewer than
4 numbers fail; otherwise the geometry is the bound of the two corner
points with latitude/longitude swapped, and the sanitized payload is the
first 4 numbers. -/
def parseBbox : List Rat → Except ValErr (Geom × RegionOut)
  | c0 :: c1 :: c2 :: c3 :: _ =>
    Except.ok (boundOfTwo (c1, c0) (c3, c2), RegionOut.bboxOut [c0, c1, c2, c3])
  | _ => Except.error ValErr.notEnoughCoords

/-- The region-type dispatch of `parseInput`: everything before the final
area check. -/
def typeStage : ParsedInput → Except ValErr (Geom × RegionOut)
  | ParsedInput.decodeBad => Except.error ValErr.invalidGeojson
  | ParsedInput.geojsonBad => Except.error ValErr.invalidGeojson
  | ParsedInput.geojsonIn g =>
    match ringCheck g with
    | some e => Except.error e
    | none => Except.ok (g, RegionOut.geojsonOut g)
  | ParsedInput.bboxIn coords => parseBbox coords
  | ParsedInput.otherType => Except.error ValErr.invalidType

/-- `parseInput` (name and region-type passthrough omitted): the
type-specific stage followed by the universal `planar.Area(geom) == 0.0`
check.  `area` models the external `orb/planar.Area` routine. -/
def parseInput (area : Geom → Rat) (inp : ParsedInput) : Except ValErr (Geom × RegionOut) :=
  match typeStage inp with
  | Except.error e => Except.error e
  | Except.ok (g, out) =>
    if area g = 0 then Except.error ValErr.zeroArea else Except.ok (g, out)

/-- All rings of a polygon or multipolygon geometry. -/
def ringsOf : Geom → List (List Coord)
  | Geom.polygon rings => rings
  | Geom.multiPolygon polys => polys.flatten
  | _ => []

/-! ## Tasks, progress and the worker (main.go lines 42-218)

`Progress` keeps the Go struct's fields (`int64` as `Int`, `float64` as
`Rat`).  The files directory and the working (tmp) directory are
association lists from file name to content; for durable files the
content is kept structurally (`FileContent`), for the region-description
file in the working directory the exact bytes matter (claim about bracket
stripping), so it is a `List Char`.  `tmpWrites` is an append-only log of
every write the task performs in the working directory, recording what was
written even when the file is deleted later. -/

structure Progress where
  Timestamp : String
  CellsTotal : Int
  CellsProg : Int
  NodesTotal : Int
  NodesProg : Int
  ElemsTotal : Int
  ElemsProg : Int
  SizeBytes : Int
  Elapsed : Rat
  Complete : Bool
deriving DecidableEq, Repr

/-- Go's zero value `Progress{}`. -/
def Progress.zero : Progress :=
  { Timestamp := "", CellsTotal := 0, CellsProg := 0, NodesTotal := 0, NodesProg := 0,
    ElemsTotal := 0, ElemsProg := 0, SizeBytes := 0, Elapsed := 0, Complete := false }

/-- `Task` from main.go (named `OsmTask` here because `Task` is taken by
the Lean core library). -/
structure OsmTask where
  Uuid : String
  SanitizedName : String
  SanitizedRegionType : String
  SanitizedRegionData : List Char
deriving DecidableEq, Repr

/-- Contents of a durable file in the files directory, kept structurally:
the final completion record, the sanitized-submission echo, or the
extraction artifact moved in from the working directory. -/
inductive FileContent where
  | record (p : Progress)
  | regionEcho (t : OsmTask)
  | artifact
deriving DecidableEq, Repr

structure SrvState where
  progress : List (String × Progress)
  queue : List OsmTask
  files : List (String × FileContent)
  tmp : List (String × List Char)
  tmpWrites : List (String × List Char)
deriving DecidableEq, Repr

/-- Where `runTask` stopped, named after the failing operation. -/
inductive RunErr where
  | createFail           -- os.Create(regionPath)
  | writeRegionFail      -- ioutil.WriteFile(<id>_region.json)
  | startFail            -- cmd.Start()
  | parseFail            -- a progress line failed to decode
  | exitFail             -- cmd.Wait() returned an error (nonzero exit)
  | statFail             -- os.Open / f.Stat on the produced artifact
  | renameFail           -- os.Rename into the files directory
  | removeFail           -- os.Remove(regionPath)
  | writeCompletionFail  -- ioutil.WriteFile(<id>)
deriving DecidableEq, Repr

/-- Outcomes of everything external that `runTask` touches: filesystem
calls, subprocess start and exit, and the parse result of each stdout
line (`some p` for a line decoding to `p`, `none` for a malformed line). -/
structure TaskEnv where
  createOk : Bool
  writeRegionOk : Bool
  startOk : Bool
  lines : List (Option Progress)
  exitOk : Bool
  statSize : Option Int
  renameOk : Bool
  removeOk : Bool
  writeCompletionOk : Bool
  elapsed : Rat

/-- The stdout reading loop of `runTask` (main.go lines 141-151): each
parsed line replaces the registry entry wholesale; a malformed line stops
the loop with a parse failure. -/
def processLines (u : String) : List (Option Progress) → List (String × Progress) →
    Bool × List (String × Progress)
  | [], reg => (true, reg)
  | some p :: rest, reg => processLines u rest (insertA u p reg)
  | none :: _, reg => (false, reg)

/-- `runTask` (main.go lines 103-194), sequential over the environment's
outcomes.  Returns the error `runTask` would return (or `none` on
success) together with the server state it leaves behind. -/
def runTask (env : TaskEnv) (task : OsmTask) (st : SrvState) : Option RunErr × SrvState :=
  let u := task.Uuid
  let regionPath := u ++ "." ++ task.SanitizedRegionType
  if env.createOk then
    let content := if task.SanitizedRegionType = "bbox"
      then (task.SanitizedRegionData.drop 1).dropLast
      else task.SanitizedRegionData
    let st1 := { st with tmp := insertA regionPath content st.tmp,
                         tmpWrites := (regionPath, content) :: st.tmpWrites }
    if env.writeRegionOk then
      let st2 := { st1 with
        files := insertA (u ++ "_region.json") (FileContent.regionEcho task) st1.files }
      if env.startOk then
        match processLines u env.lines st2.progress with
        | (ok, reg) =>
          let st3 := { st2 with progress := reg }
          if ok then
            if env.exitOk then
              match env.statSize with
              | none => (some RunErr.statFail, st3)
              | some size =>
                if env.renameOk then
                  let st4 := { st3 with
                    tmp := eraseA (u ++ ".osm.pbf") st3.tmp,
                    files := insertA (u ++ ".osm.pbf") FileContent.artifact st3.files }
                  if env.removeOk then
                    let st5 := { st4 with tmp := eraseA regionPath st4.tmp }
                    let last := (lookupA u st5.progress).getD Progress.zero
                    let st6 := { st5 with progress := eraseA u st5.progress }
                    let fin := { last with
                      Elapsed := env.elapsed, Complete := true, SizeBytes := size }
                    if env.writeCompletionOk then
                      (none,
                       { st6 with files := insertA u (FileContent.record fin) st6.files })
                    else (some RunErr.writeCompletionFail, st6)
                  else (some RunErr.removeFail, st4)
                else (some RunErr.renameFail, st3)
            else (some RunErr.exitFail, st3)
          else (some RunErr.parseFail, st3)
      else (some RunErr.startFail, st2)
    else (some RunErr.writeRegionFail, st1)
  else (some RunErr.createFail, st)

/-- One iteration of `worker` (main.go lines 196-209): record the empty
progress snapshot for the dequeued task, then run it; an error is only
printed and sent to the observability sink, leaving the state as
`runTask` left it. -/
def workerStep (env : TaskEnv) (task : OsmTask) (st : SrvState) : SrvState :=
  let st0 := { st with progress := insertA task.Uuid Progress.zero st.progress }
  (runTask env task st0).2

/-! ## The HTTP handler `ServeHTTP` (main.go lines 326-414) -/

/-- `make(chan Task, 512)` in `StartWorkers` (main.go line 212). -/
def queueCap : Nat := 512

inductive PostResp where
  | badRequest                     -- 400, validation failure
  | limitExceeded (msg : String)   -- 400 with an explanatory message
  | created (id : String)          -- 201 with the task identifier
  | unavailable                    -- 503, queue full
deriving DecidableEq, Repr

/-- The POST branch of `ServeHTTP` (main.go lines 328-354).  `area`,
`cover` and `render` model the external `planar.Area`, `tilecover` and
JSON-serialization routines; `freshUuid` models `uuid.New().String()`.
The `select` on the buffered channel succeeds exactly when the buffer has
room. -/
def servePost (area : Geom → Rat) (cover : Geom → Nat → List Tile)
    (render : RegionOut → List Char) (img : Img) (nodesLimit : Int)
    (freshUuid name rtype : String) (inp : ParsedInput) (st : SrvState) :
    PostResp × SrvState :=
  match parseInput area inp with
  | Except.error _ => (PostResp.badRequest, st)
  | Except.ok (geom, out) =>
    if GetSum img (cover geom) > nodesLimit then
      (PostResp.limitExceeded "Error: the limit of nodes was exceeded.", st)
    else
      let task : OsmTask :=
        { Uuid := freshUuid, SanitizedName := name, SanitizedRegionType := rtype,
          SanitizedRegionData := render out }
      if st.queue.length < queueCap then
        (PostResp.created freshUuid,
         { st with queue := st.queue ++ [task],
                   progress := insertA freshUuid Progress.zero st.progress })
      else (PostResp.unavailable, st)

inductive GetResp where
  | okProgress (p : Progress)   -- 200, registry entry as JSON
  | okFile (c : FileContent)    -- 200, durable file streamed
  | notFound                    -- 404
deriving DecidableEq, Repr

/-- The `GET /api/<id>` branch of `ServeHTTP` (main.go lines 386-411):
registry first, then the files directory, else 404. -/
def serveGetId (u : String) (st : SrvState) : GetResp :=
  match lookupA u st.progress with
  | some p => GetResp.okProgress p
  | none =>
    match lookupA u st.files with
    | some c => GetResp.okFile c
    | none => GetResp.notFound

/-! ## The freshness cache (main.go lines 97-101 and 356-381)

Times are `Rat` seconds on an absolute clock; `time.Since(t).Seconds()`
is `now - t` and `d.Minutes()` is `d / 60`.  The external
`osmx query <data> timestamp` invocation together with the RFC3339 parse
of its output is modelled by `ext`: `some t` when the output parses to
time `t`, `none` when the command fails or the parse fails. -/

structure LastUpdated where
  timestamp : Rat
  checkedAt : Rat
deriving DecidableEq, Repr

/-- The `GET /api` branch of `ServeHTTP`: refresh the cache when the last
check is more than 10 seconds old, then report "ok" or "warn" by the
15-minute staleness window.  Returns whether the external query was
invoked, the new cache, and the status string. -/
def serveStatus (now : Rat) (ext : Option Rat) (c : LastUpdated) :
    Bool × LastUpdated × String :=
  let invoke := decide (now - c.checkedAt > 10)
  let c' := if now - c.checkedAt > 10 then
      match ext with
      | some t => { timestamp := t, checkedAt := now }
      | none => c
    else c
  let status := if (now - c'.timestamp) / 60 > 15 then "warn" else "ok"
  (invoke, c', status)

/-! ## Supporting lemmas for the validator claims -/

theorem firstShortRing_eq_none_iff (rs : List (List Coord)) :
    firstShortRing rs = none ↔ ∀ r ∈ rs, 4 ≤ r.length := by
  induction rs with
  | nil => simp [firstShortRing]
  | cons r rest ih =>
    simp only [firstShortRing]
    by_cases h : r.length < 4
    · rw [if_pos h]
      constructor
      · intro hc
        cases hc
      · intro hall
        have := hall r (List.mem_cons_self r rest)
        omega
    · rw [if_neg h, ih]
      constructor
      · intro hall r' hr'
        rcases List.mem_cons.mp hr' with h1 | h2
        · subst h1
          omega
        · exact hall r' h2
      · intro hall r' hr'
        exact hall r' (List.mem_cons_of_mem _ hr')

theorem firstShortRing_not_short (rs : List (List Coord))
    (h : ∀ r ∈ rs, 4 ≤ r.length) : firstShortRing rs = none :=
  (firstShortRing_eq_none_iff rs).mpr h

theorem checkPoly_eq_none_iff (p : List (List Coord)) :
    checkPoly p = none ↔ (p ≠ [] ∧ ∀ r ∈ p, 4 ≤ r.length) := by
  unfold checkPoly
  by_cases hp : p.length = 0
  · have hnil : p = [] := List.length_eq_zero.mp hp
    subst hnil
    simp
  · rw [if_neg hp, firstShortRing_eq_none_iff]
    have hne : p ≠ [] := by
      intro hnil
      subst hnil
      simp at hp
    simp [hne]

theorem checkPolys_eq_none_iff (ps : List (List (List Coord))) :
    checkPolys ps = none ↔ ∀ p ∈ ps, p ≠ [] ∧ ∀ r ∈ p, 4 ≤ r.length := by
  induction ps with
  | nil => simp [checkPolys]
  | cons p rest ih =>
    simp only [checkPolys]
    cases hcp : checkPoly p with
    | some e =>
      simp only []
      constructor
      · intro hc
        cases hc
      · intro hall
        have hnone := (checkPoly_eq_none_iff p).mpr (hall p (List.mem_cons_self p rest))
        rw [hnone] at hcp
        cases hcp
    | none =>
      simp only [ih]
      constructor
      · intro hall p' hp'
        rcases List.mem_cons.mp hp' with h1 | h2
        · subst h1
          exact (checkPoly_eq_none_iff _).mp hcp
        · exact hall p' h2
      · intro hall p' hp'
        exact hall p' (List.mem_cons_of_mem _ hp')

theorem checkPolys_not_short (ps : List (List (List Coord)))
    (h : ∀ r ∈ ps.flatten, 4 ≤ r.length) :
    checkPolys ps ≠ some ValErr.ringTooFew := by
  induction ps with
  | nil =>
    simp [checkPolys]
  | cons p rest ih =>
    simp only [checkPolys]
    have hallp : ∀ r ∈ p, 4 ≤ r.length := by
      intro r hr
      exact h r (List.mem_flatten.mpr ⟨p, List.mem_cons_self p rest, hr⟩)
    have hrest : ∀ r ∈ rest.flatten, 4 ≤ r.length := by
      intro r hr
      apply h
      rw [List.flatten_cons]
      exact List.mem_append_right _ hr
    cases hcp : checkPoly p with
    | some e =>
      have he : e = ValErr.notEnoughRings := by
        unfold checkPoly at hcp
        by_cases hp : p.length = 0
        · rw [if_pos hp] at hcp
          cases hcp
          rfl
        · rw [if_neg hp, firstShortRing_not_short p hallp] at hcp
          cases hcp
      subst he
      simp
    | none =>
      simpa using ih hrest

/-! ## Claim theorems: the region validator -/

/-- C5: for a parsed Polygon or MultiPolygon, validation fails exactly when
the polygon set is empty, some contained polygon has an empty ring list, or
some ring has fewer than 4 coordinates; a geometry whose rings all have at
least 4 coordinates never trips the ring-length check; and any ring-check
error is the error `parseInput` returns. -/
theorem c5_ring_checks (area : Geom → Rat) :
    (∀ rings, ringCheck (Geom.polygon rings) = none ↔
      (rings ≠ [] ∧ ∀ r ∈ rings, 4 ≤ r.length)) ∧
    (∀ polys, ringCheck (Geom.multiPolygon polys) = none ↔
      (polys ≠ [] ∧ ∀ p ∈ polys, p ≠ [] ∧ ∀ r ∈ p, 4 ≤ r.length)) ∧
    (∀ g, (∀ r ∈ ringsOf g, 4 ≤ r.length) → ringCheck g ≠ some ValErr.ringTooFew) ∧
    (∀ g e, ringCheck g = some e →
      parseInput area (ParsedInput.geojsonIn g) = Except.error e) := by
  refine ⟨?_, ?_, ?_, ?_⟩
  · intro rings
    simp only [ringCheck]
    by_cases hp : rings.length = 0
    · have hnil : rings = [] := List.length_eq_zero.mp hp
      subst hnil
      simp
    · have hne : rings ≠ [] := by
        intro hnil
        subst hnil
        simp at hp
      rw [if_neg hp, firstShortRing_eq_none_iff]
      simp [hne]
  · intro polys
    simp only [ringCheck]
    by_cases hp : polys.length = 0
    · have hnil : polys = [] := List.length_eq_zero.mp hp
      subst hnil
      simp
    · have hne : polys ≠ [] := by
        intro hnil
        subst hnil
        simp at hp
      rw [if_neg hp, checkPolys_eq_none_iff]
      simp [hne]
  · intro g hall
    cases g with
    | polygon rings =>
      simp only [ringCheck]
      by_cases hp : rings.length = 0
      · simp [hp]
      · rw [if_neg hp, firstShortRing_not_short rings hall]
        simp
    | multiPolygon polys =>
      simp only [ringCheck]
      by_cases hp : polys.length = 0
      · simp [hp]
      · rw [if_neg hp]
        exact checkPolys_not_short polys hall
    | point p => simp [ringCheck]
    | multiPoint ps => simp [ringCheck]
    | lineString ps => simp [ringCheck]
    | bound lo hi => simp [ringCheck]
  · intro g e he
    simp [parseInput, typeStage, he]

/-- C5 witness: a polygon whose single ring has 4 coordinates passes the
ring-length check, and a ring-check error propagates out of `parseInput`. -/
theorem c5_ring_checks_witness :
    ringCheck (Geom.polygon [[(0, 0), (1, 1), (1, 0), (0, 0)]]) ≠
      some ValErr.ringTooFew ∧
    parseInput (fun _ => 1) (ParsedInput.geojsonIn (Geom.polygon [])) =
      Except.error ValErr.notEnoughRings :=
  ⟨(c5_ring_checks (fun _ => 1)).2.2.1 (Geom.polygon [[(0, 0), (1, 1), (1, 0), (0, 0)]])
      (by decide),
   (c5_ring_checks (fun _ => 1)).2.2.2 (Geom.polygon []) ValErr.notEnoughRings (by decide)⟩

/-- C6: the bbox branch fails exactly when fewer than 4 numbers were
decoded; otherwise the geometry is the rectangular bound of the two corner
points with the coordinate order swapped — `(coords[1], coords[0])` and
`(coords[3], coords[2])` — and the sanitized payload is the first 4
numbers as a bare array; and this branch is exactly what `parseInput` runs
for a bbox submission before the area check. -/
theorem c6_bbox_stage (coords : List Rat) :
    (parseBbox coords = Except.error ValErr.notEnoughCoords ↔ coords.length < 4) ∧
    (∀ c0 c1 c2 c3 rest, parseBbox (c0 :: c1 :: c2 :: c3 :: rest) =
      Except.ok (boundOfTwo (c1, c0) (c3, c2),
        RegionOut.bboxOut ((c0 :: c1 :: c2 :: c3 :: rest).take 4))) ∧
    (∀ cs, typeStage (ParsedInput.bboxIn cs) = parseBbox cs) := by
  refine ⟨?_, ?_, ?_⟩
  · match coords with
    | [] => simp [parseBbox]
    | [a] => simp [parseBbox]
    | [a, b] => simp [parseBbox]
    | [a, b, c] => simp [parseBbox]
    | a :: b :: c :: d :: rest =>
      simp [parseBbox]
  · intro c0 c1 c2 c3 rest
    simp [parseBbox, List.take]
  · intro cs
    rfl

/-- C7: once the type-specific checks pass, validation fails exactly when
the computed planar area of the geometry is zero, and succeeds with that
geometry otherwise. -/
theorem c7_zero_area (area : Geom → Rat) (inp : ParsedInput) (g : Geom) (out : RegionOut)
    (h : typeStage inp = Except.ok (g, out)) :
    ((∃ e, parseInput area inp = Except.error e) ↔ area g = 0) ∧
    (parseInput area inp = Except.error ValErr.zeroArea ↔ area g = 0) ∧
    (area g ≠ 0 → parseInput area inp = Except.ok (g, out)) := by
  by_cases ha : area g = 0
  · simp [parseInput, h, ha]
  · simp [parseInput, h, ha]

/-- C7 witness: under an area function that is zero on the witness
geometry, a bbox input passing the type checks is rejected, and under a
nonzero one it is accepted. -/
theorem c7_zero_area_witness :
    ((∃ e, parseInput (fun _ => 0) (ParsedInput.bboxIn [0, 0, 1, 1]) = Except.error e) ↔
      (fun _ => (0 : Rat)) (boundOfTwo (0, 0) (1, 1)) = 0) ∧
    (parseInput (fun _ => 0) (ParsedInput.bboxIn [0, 0, 1, 1]) =
        Except.error ValErr.zeroArea ↔
      (fun _ => (0 : Rat)) (boundOfTwo (0, 0) (1, 1)) = 0) ∧
    ((fun _ => (0 : Rat)) (boundOfTwo (0, 0) (1, 1)) ≠ 0 →
      parseInput (fun _ => 0) (ParsedInput.bboxIn [0, 0, 1, 1]) =
        Except.ok (boundOfTwo (0, 0) (1, 1), RegionOut.bboxOut [0, 0, 1, 1])) :=
  c7_zero_area (fun _ => 0) (ParsedInput.bboxIn [0, 0, 1, 1])
    (boundOfTwo (0, 0) (1, 1)) (RegionOut.bboxOut [0, 0, 1, 1]) (by rfl)

/-! ## Claim theorems: the density raster -/

/-- C2: at zoom coarser than 12, `GetPixel` sums the raw reference-raster
values over the `2^(12-z) × 2^(12-z)` block of reference cells the coarse
cell covers; at zoom 12 it is the raw value `high*256 + low` exactly; at
zoom finer than 12 it is the containing reference cell (fine coordinates
integer-divided by `2^(z-12)`) divided by `2^(2*(z-12))`. -/
theorem c2_getPixel_cases (img : Img) (z x y : Nat) :
    (z < 12 → GetPixel img z x y =
      ∑ i ∈ Finset.range (2 ^ (12 - z)), ∑ j ∈ Finset.range (2 ^ (12 - z)),
        ((rawVal img (x * 2 ^ (12 - z) + i) (y * 2 ^ (12 - z) + j) : Nat) : Rat)) ∧
    (z = 12 → GetPixel img z x y = (((img x y).1 / 256 * 256 + (img x y).2 / 256 : Nat) : Rat)) ∧
    (12 < z → GetPixel img z x y =
      ((rawVal img (x / 2 ^ (z - 12)) (y / 2 ^ (z - 12)) : Nat) : Rat) /
        ((2 ^ (2 * (z - 12)) : Nat) : Rat)) := by
  have hshift : ∀ w : Nat, 0 < w → 2 <<< (w - 1) = 2 ^ w := by
    intro w hw
    rw [Nat.shiftLeft_eq, ← pow_succ']
    congr 1
    omega
  refine ⟨?_, ?_, ?_⟩
  · intro h
    have hdz : 2 <<< (12 - z - 1) = 2 ^ (12 - z) := hshift (12 - z) (by omega)
    simp only [GetPixel, if_pos h, hdz]
    rfl
  · intro h
    subst h
    simp [GetPixel, rawVal]
  · intro h
    have hdz : 2 <<< (z - 12 - 1) = 2 ^ (z - 12) := hshift (z - 12) (by omega)
    have hsq : (2 : Nat) ^ (z - 12) * 2 ^ (z - 12) = 2 ^ (2 * (z - 12)) := by
      rw [← pow_add]
      congr 1
      omega
    simp only [GetPixel, if_neg (by omega : ¬ z < 12), if_neg (by omega : ¬ z = 12),
      hdz, hsq]

/-- C2 witness: a concrete raster and the finer-than-reference case at
zoom 13. -/
def imgW : Img := fun _ _ => (513, 770)

theorem c2_getPixel_cases_witness :
    12 < 13 ∧ GetPixel imgW 13 5 7 =
      ((rawVal imgW (5 / 2 ^ (13 - 12)) (7 / 2 ^ (13 - 12)) : Nat) : Rat) /
        ((2 ^ (2 * (13 - 12)) : Nat) : Rat) :=
  ⟨by omega, (c2_getPixel_cases imgW 13 5 7).2.2 (by omega)⟩

/-! ## Claim theorems: estimation, admission and the queue -/

/-- C3: the node-count estimate sums `GetPixel` over the covering set at
the zoom reached by climbing from 0 until the covering exceeds 256 tiles
or zoom 14 is reached, multiplies by 32 and truncates; and a POST whose
estimate exceeds the configured node limit is answered 400 with the
explanatory message, leaving the state (hence queue and registry)
untouched. -/
theorem c3_estimate_and_admission
    (img : Img) (cover0 : Nat → List Tile)
    (area : Geom → Rat) (cover : Geom → Nat → List Tile) (render : RegionOut → List Char)
    (nodesLimit : Int) (u name rtype : String) (inp : ParsedInput) (st : SrvState)
    (g : Geom) (out : RegionOut)
    (hparse : parseInput area inp = Except.ok (g, out))
    (hover : GetSum img (cover g) > nodesLimit) :
    GetSum img cover0 =
      ratTrunc ((((cover0 (specZoom cover0)).map fun t => GetPixel img t.z t.x t.y).sum) * 32) ∧
    servePost area cover render img nodesLimit u name rtype inp st =
      (PostResp.limitExceeded "Error: the limit of nodes was exceeded.", st) := by
  constructor
  · simp only [GetSum, coverLoop_eq_specZoom]
  · simp only [servePost, hparse]
    rw [if_pos hover]

/-! Shared concrete instances for witnesses. -/

def areaOne : Geom → Rat := fun _ => 1

def coverNone : Geom → Nat → List Tile := fun _ _ => []

def coverNone0 : Nat → List Tile := fun _ => []

def renderNil : RegionOut → List Char := fun _ => []

def emptySt : SrvState :=
  { progress := [], queue := [], files := [], tmp := [], tmpWrites := [] }

def bboxGeomW : Geom := boundOfTwo (0, 0) (1, 1)

def bboxOutW : RegionOut := RegionOut.bboxOut [0, 0, 1, 1]

theorem c3_estimate_and_admission_witness :
    GetSum imgW coverNone0 =
      ratTrunc ((((coverNone0 (specZoom coverNone0)).map
        fun t => GetPixel imgW t.z t.x t.y).sum) * 32) ∧
    servePost areaOne coverNone renderNil imgW (-1) "u" "n" "bbox"
        (ParsedInput.bboxIn [0, 0, 1, 1]) emptySt =
      (PostResp.limitExceeded "Error: the limit of nodes was exceeded.", emptySt) :=
  c3_estimate_and_admission imgW coverNone0 areaOne coverNone renderNil (-1) "u" "n" "bbox"
    (ParsedInput.bboxIn [0, 0, 1, 1]) emptySt bboxGeomW bboxOutW (by rfl)
    (by
      show GetSum imgW (fun _ => []) > -1
      rw [getSum_empty_cover imgW]
      decide)

/-- C4: the queue is a fixed buffer of capacity 512, and a validated,
admitted POST arriving with the buffer full is answered 503 with the
state unchanged: nothing is enqueued and no registry entry is created. -/
theorem c4_queue_full (area : Geom → Rat) (cover : Geom → Nat → List Tile)
    (render : RegionOut → List Char) (img : Img) (nodesLimit : Int)
    (u name rtype : String) (inp : ParsedInput) (st : SrvState)
    (g : Geom) (out : RegionOut)
    (hparse : parseInput area inp = Except.ok (g, out))
    (hwithin : ¬ GetSum img (cover g) > nodesLimit)
    (hfull : queueCap ≤ st.queue.length) :
    queueCap = 512 ∧
    servePost area cover render img nodesLimit u name rtype inp st =
      (PostResp.unavailable, st) := by
  refine ⟨rfl, ?_⟩
  simp only [servePost, hparse]
  rw [if_neg hwithin, if_neg (by omega)]

def taskW : OsmTask :=
  { Uuid := "t", SanitizedName := "n", SanitizedRegionType := "bbox",
    SanitizedRegionData := [] }

def fullSt : SrvState :=
  { progress := [], queue := List.replicate 512 taskW, files := [], tmp := [],
    tmpWrites := [] }

theorem c4_queue_full_witness :
    queueCap = 512 ∧
    servePost areaOne coverNone renderNil imgW 1000 "u" "n" "bbox"
        (ParsedInput.bboxIn [0, 0, 1, 1]) fullSt =
      (PostResp.unavailable, fullSt) :=
  c4_queue_full areaOne coverNone renderNil imgW 1000 "u" "n" "bbox"
    (ParsedInput.bboxIn [0, 0, 1, 1]) fullSt bboxGeomW bboxOutW (by rfl)
    (by
      show ¬ GetSum imgW (fun _ => []) > 1000
      rw [getSum_empty_cover imgW]
      decide)
    (by
      show queueCap ≤ (List.replicate 512 taskW).length
      rw [List.length_replicate]
      decide)

/-- C10: whenever a POST is accepted (validated, admitted and enqueued),
the resulting state's registry maps the new identifier to the zero-valued
`Progress`, so a `GET /api/<id>` against that state returns the all-zero
progress document rather than 404, and the task sits at the back of the
queue under the same identifier. -/
theorem c10_accepted_post (area : Geom → Rat) (cover : Geom → Nat → List Tile)
    (render : RegionOut → List Char) (img : Img) (nodesLimit : Int)
    (u name rtype : String) (inp : ParsedInput) (st : SrvState) (v : String) (st' : SrvState)
    (h : servePost area cover render img nodesLimit u name rtype inp st =
      (PostResp.created v, st')) :
    lookupA v st'.progress = some Progress.zero ∧
    serveGetId v st' = GetResp.okProgress Progress.zero ∧
    ∃ task : OsmTask, st'.queue = st.queue ++ [task] ∧ task.Uuid = v := by
  simp only [servePost] at h
  cases hp : parseInput area inp with
  | error e =>
    simp [hp] at h
  | ok p =>
    obtain ⟨g, out⟩ := p
    simp only [hp] at h
    by_cases hlim : GetSum img (cover g) > nodesLimit
    · simp [if_pos hlim] at h
    · simp only [if_neg hlim] at h
      by_cases hlen : st.queue.length < queueCap
      · simp only [if_pos hlen, Prod.mk.injEq, PostResp.created.injEq] at h
        obtain ⟨huv, hst⟩ := h
        subst huv
        subst hst
        refine ⟨lookupA_insertA_self u Progress.zero st.progress, ?_, ?_⟩
        · simp [serveGetId, lookupA_insertA_self]
        · exact ⟨_, rfl, rfl⟩
      · simp [if_neg hlen] at h

def stPrime : SrvState :=
  { progress := [("u", Progress.zero)],
    queue := [{ Uuid := "u", SanitizedName := "n", SanitizedRegionType := "bbox",
                SanitizedRegionData := [] }],
    files := [], tmp := [], tmpWrites := [] }

theorem c10_accepted_post_witness :
    lookupA "u" stPrime.progress = some Progress.zero ∧
    serveGetId "u" stPrime = GetResp.okProgress Progress.zero ∧
    ∃ task : OsmTask, stPrime.queue = emptySt.queue ++ [task] ∧ task.Uuid = "u" :=
  c10_accepted_post areaOne coverNone renderNil imgW 1000 "u" "n" "bbox"
    (ParsedInput.bboxIn [0, 0, 1, 1]) emptySt "u" stPrime
    (by
      have hparse : parseInput areaOne (ParsedInput.bboxIn [0, 0, 1, 1]) =
          Except.ok (bboxGeomW, bboxOutW) := by rfl
      simp only [servePost, hparse]
      rw [if_neg (by
        show ¬ GetSum imgW (fun _ => []) > 1000
        rw [getSum_empty_cover imgW]
        decide)]
      rw [if_pos (by decide)]
      rfl)

/-! ## Claim theorems: the freshness cache -/

theorem warn_iff_aux (d : Rat) :
    (if d / 60 > 15 then "warn" else "ok") = (if d ≤ 15 * 60 then "ok" else "warn") := by
  by_cases h : d / 60 > 15
  · rw [if_pos h, if_neg]
    rw [not_le]
    calc (15 * 60 : Rat) = 15 * 60 := rfl
    _ < d := by
      have := (lt_div_iff₀ (by norm_num : (0 : Rat) < 60)).mp h
      linarith
  · rw [if_neg h, if_pos]
    have hle : d / 60 ≤ 15 := not_lt.mp h
    have := (div_le_iff₀ (by norm_num : (0 : Rat) < 60)).mp hle
    linarith

/-- C8: on a status query the external timestamp query runs exactly when
more than 10 seconds have elapsed since the last check; a successful parse
updates both the cached timestamp and the check time, a failure keeps the
stale cache; and the reported status is "ok" exactly when the (possibly
refreshed) cached timestamp is within 15 minutes of now, else "warn". -/
theorem c8_freshness_cache (now : Rat) (ext : Option Rat) (c : LastUpdated) :
    ((serveStatus now ext c).1 = true ↔ 10 < now - c.checkedAt) ∧
    (∀ t : Rat, 10 < now - c.checkedAt →
      (serveStatus now (some t) c).2.1 = { timestamp := t, checkedAt := now }) ∧
    (10 < now - c.checkedAt → (serveStatus now none c).2.1 = c) ∧
    (¬ 10 < now - c.checkedAt → (serveStatus now ext c).2.1 = c) ∧
    ((serveStatus now ext c).2.2 =
      if now - (serveStatus now ext c).2.1.timestamp ≤ 15 * 60 then "ok" else "warn") := by
  refine ⟨?_, ?_, ?_, ?_, ?_⟩
  · simp [serveStatus]
  · intro t h
    simp [serveStatus, h]
  · intro h
    simp [serveStatus, h]
  · intro h
    simp [serveStatus, h]
  · have hs : (serveStatus now ext c).2.2 =
        if (now - (serveStatus now ext c).2.1.timestamp) / 60 > 15 then "warn" else "ok" := rfl
    rw [hs, warn_iff_aux]

theorem c8_freshness_cache_witness :
    (serveStatus 100 (some 50) { timestamp := 0, checkedAt := 0 }).2.1 =
      { timestamp := 50, checkedAt := 100 } :=
  (c8_freshness_cache 100 (some 50) { timestamp := 0, checkedAt := 0 }).2.1 50 (by norm_num)

/-! ## Claim theorems: the worker and the task run -/

/-- C9: whenever the region-description file is created, its content is the
sanitized region payload verbatim, except for a bbox task where the first
and last byte — the surrounding array brackets — are stripped, leaving the
bare comma-separated numbers. -/
theorem c9_region_file (env : TaskEnv) (task : OsmTask) (st : SrvState)
    (hc : env.createOk = true) :
    ((runTask env task st).2.tmpWrites =
      (task.Uuid ++ "." ++ task.SanitizedRegionType,
        if task.SanitizedRegionType = "bbox"
          then (task.SanitizedRegionData.drop 1).dropLast
          else task.SanitizedRegionData) :: st.tmpWrites) ∧
    (∀ inner : List Char, task.SanitizedRegionType = "bbox" →
      task.SanitizedRegionData = '[' :: (inner ++ [']']) →
      (runTask env task st).2.tmpWrites =
        (task.Uuid ++ "." ++ task.SanitizedRegionType, inner) :: st.tmpWrites) := by
  have main : (runTask env task st).2.tmpWrites =
      (task.Uuid ++ "." ++ task.SanitizedRegionType,
        if task.SanitizedRegionType = "bbox"
          then (task.SanitizedRegionData.drop 1).dropLast
          else task.SanitizedRegionData) :: st.tmpWrites := by
    rcases hpl : processLines task.Uuid env.lines st.progress with ⟨ok, reg⟩
    cases hwo : env.writeRegionOk <;>
      cases hso : env.startOk <;>
      cases hok : ok <;>
      cases heo : env.exitOk <;>
      rcases hss : env.statSize with _ | size <;>
      cases hro : env.renameOk <;>
      cases hrm : env.removeOk <;>
      cases hwc : env.writeCompletionOk <;>
      simp [runTask, hc, hwo, hso, heo, hss, hro, hrm, hwc, hpl, hok]
  refine ⟨main, ?_⟩
  intro inner hb hd
  rw [main, hb, hd]
  simp

theorem c9_region_file_witness :
    (runTask
        { createOk := true, writeRegionOk := true, startOk := true, lines := [],
          exitOk := true, statSize := some 5, renameOk := true, removeOk := true,
          writeCompletionOk := true, elapsed := 0 }
        { Uuid := "u1", SanitizedName := "n", SanitizedRegionType := "bbox",
          SanitizedRegionData := ['[', '1', ',', '2', ']'] }
        emptySt).2.tmpWrites =
      ("u1" ++ "." ++ "bbox", ['1', ',', '2']) :: emptySt.tmpWrites :=
  (c9_region_file
    { createOk := true, writeRegionOk := true, startOk := true, lines := [],
      exitOk := true, statSize := some 5, renameOk := true, removeOk := true,
      writeCompletionOk := true, elapsed := 0 }
    { Uuid := "u1", SanitizedName := "n", SanitizedRegionType := "bbox",
      SanitizedRegionData := ['[', '1', ',', '2', ']'] }
    emptySt (by rfl)).2 ['1', ',', '2'] (by rfl) (by rfl)

theorem processLines_lookup_isSome (u : String) (ls : List (Option Progress))
    (reg : List (String × Progress)) (h : (lookupA u reg).isSome = true) :
    (lookupA u (processLines u ls reg).2).isSome = true := by
  induction ls generalizing reg with
  | nil => simpa [processLines] using h
  | cons o rest ih =>
    cases o with
    | none => simpa [processLines] using h
    | some p =>
      simp only [processLines]
      exact ih (insertA u p reg) (by rw [lookupA_insertA_self]; rfl)

/-- C1 (amended): when the run fails because the subprocess exits nonzero,
fails to start, or a progress line fails to parse, the worker leaves the
Progress Registry entry for the task identifier in place — it is never
removed on the failure path — while no durable record is written to the
files directory under the identifier. -/
theorem c1_failed_task_state (env : TaskEnv) (task : OsmTask) (st : SrvState) (e : RunErr)
    (hfile : lookupA task.Uuid st.files = none)
    (hrun : (runTask env task
      { st with progress := insertA task.Uuid Progress.zero st.progress }).1 = some e)
    (hmode : e = RunErr.startFail ∨ e = RunErr.parseFail ∨ e = RunErr.exitFail) :
    (lookupA task.Uuid (workerStep env task st).progress).isSome = true ∧
    lookupA task.Uuid (workerStep env task st).files = none := by
  have hne1 : task.Uuid ++ "_region.json" ≠ task.Uuid := fun h =>
    self_ne_append task.Uuid "_region.json" (by decide) h.symm
  cases hco : env.createOk with
  | false =>
    exfalso
    simp [runTask, hco] at hrun
    rcases hmode with rfl | rfl | rfl <;> simp at hrun
  | true =>
    cases hwo : env.writeRegionOk with
    | false =>
      exfalso
      simp [runTask, hco, hwo] at hrun
      rcases hmode with rfl | rfl | rfl <;> simp at hrun
    | true =>
      cases hso : env.startOk with
      | false =>
        constructor
        · simp [workerStep, runTask, hco, hwo, hso, lookupA_insertA_self]
        · simp only [workerStep, runTask, hco, hwo, hso]
          simp only [Bool.false_eq_true, if_false, if_true]
          rw [lookupA_insertA_ne _ _ _ _ hne1]
          exact hfile
      | true =>
        rcases hpl : processLines task.Uuid env.lines
            (insertA task.Uuid Progress.zero st.progress) with ⟨ok, reg⟩
        have hreg : (lookupA task.Uuid reg).isSome = true := by
          have hbase : (lookupA task.Uuid
              (insertA task.Uuid Progress.zero st.progress)).isSome = true := by
            rw [lookupA_insertA_self]
            rfl
          have h2 := processLines_lookup_isSome task.Uuid env.lines _ hbase
          rw [hpl] at h2
          exact h2
        cases hok : ok with
        | false =>
          subst hok
          constructor
          · simp [workerStep, runTask, hco, hwo, hso, hpl, hreg]
          · simp only [workerStep, runTask, hco, hwo, hso]
            simp [hpl]
            rw [lookupA_insertA_ne _ _ _ _ hne1]
            exact hfile
        | true =>
          subst hok
          cases heo : env.exitOk with
          | false =>
            constructor
            · simp [workerStep, runTask, hco, hwo, hso, hpl, heo, hreg]
            · simp only [workerStep, runTask, hco, hwo, hso]
              simp [hpl, heo]
              rw [lookupA_insertA_ne _ _ _ _ hne1]
              exact hfile
          | true =>
            exfalso
            rcases hss : env.statSize with _ | size <;>
              cases hro : env.renameOk <;>
              cases hrm : env.removeOk <;>
              cases hwc : env.writeCompletionOk <;>
              simp [runTask, hco, hwo, hso, hpl, heo, hss, hro, hrm, hwc] at hrun <;>
              rcases hmode with rfl | rfl | rfl <;> simp at hrun

/-- A run whose subprocess exits nonzero after starting cleanly. -/
def envFail : TaskEnv :=
  { createOk := true, writeRegionOk := true, startOk := true, lines := [],
    exitOk := false, statSize := none, renameOk := true, removeOk := true,
    writeCompletionOk := true, elapsed := 0 }

def taskF : OsmTask :=
  { Uuid := "u1", SanitizedName := "n", SanitizedRegionType := "geojson",
    SanitizedRegionData := [] }

/-- C1 counterexample: for this failed run (nonzero exit) the Progress
Registry still contains the entry for the task identifier, so the claim
that the registry holds no entry after a failure is false; the durable
half of the claim does hold (no file under the identifier). -/
theorem c1_failed_task_counterexample :
    (runTask envFail taskF
      { emptySt with progress := insertA "u1" Progress.zero emptySt.progress }).1 =
      some RunErr.exitFail ∧
    lookupA "u1" (workerStep envFail taskF emptySt).progress = some Progress.zero ∧
    ¬ (lookupA "u1" (workerStep envFail taskF emptySt).progress = none ∧
       lookupA "u1" (workerStep envFail taskF emptySt).files = none) := by
  refine ⟨by decide, by decide, ?_⟩
  intro h
  have h1 := h.1
  rw [(by decide : lookupA "u1" (workerStep envFail taskF emptySt).progress =
      some Progress.zero)] at h1
  cases h1

theorem c1_failed_task_state_witness :
    (lookupA "u1" (workerStep envFail taskF emptySt).progress).isSome = true ∧
    lookupA "u1" (workerStep envFail taskF emptySt).files = none :=
  c1_failed_task_state envFail taskF emptySt RunErr.exitFail (by decide) (by decide)
    (Or.inr (Or.inr rfl))
